import Mathlib

/-!
Verification development for the tenant rate review tool
(`src/streamlit_app.py`).  The per-record suggestion engine, the rounder,
the unit-type normalization and the competitor index construction are
embedded as executable Lean definitions over exact rationals; a Python
float that may hold `NaN` is embedded as `Option ℚ` with `none` playing
the role of `NaN` (arithmetic propagates it, comparisons against it are
false, and `round` on it raises, which we model by the whole record
evaluation returning `none`).
-/

/-- A Python float value as used by the app: either a real number
(modelled exactly as a rational) or `NaN` (`none`). -/
abbrev PF := Option ℚ

/-- Multiplication on Python floats: `NaN` propagates. -/
def pfMul (a b : PF) : PF :=
  match a, b with
  | some x, some y => some (x * y)
  | _, _ => none

/-- Python `a < b` on floats: any comparison involving `NaN` is `False`. -/
def pfLt (a b : PF) : Bool :=
  match a, b with
  | some x, some y => decide (x < y)
  | _, _ => false

/-- Python `a > b` on floats: any comparison involving `NaN` is `False`. -/
def pfGt (a b : PF) : Bool := pfLt b a

/-- Python's builtin `max(a, b)`: returns `b` exactly when `b > a`. -/
def pfMax (a b : PF) : PF := if pfLt a b then b else a

/-- Python's builtin `min(a, b)`: returns `b` exactly when `b < a`. -/
def pfMin (a b : PF) : PF := if pfLt b a then b else a

/-- Python 3's builtin `round` to an integer: round half to even
(banker's rounding), which is what `round` does on the exact value of its
argument. -/
def pyRound (q : ℚ) : ℤ :=
  let f := Int.floor q
  let frac := q - (f : ℚ)
  if frac < 1/2 then f
  else if 1/2 < frac then f + 1
  else if f % 2 = 0 then f else f + 1

/-- `round_to_step(val, step) = int(round(val / step) * step)` from the
source: quantize a value to a multiple of `step`. -/
def round_to_step (val : ℚ) (step : ℤ) : ℤ :=
  pyRound (val / (step : ℚ)) * step

/-- Python's `\s` whitespace class over the ASCII range (space, tab,
newline, carriage return, vertical tab, form feed), as matched by the
`\s*x\s*` pattern and by `str.strip`. -/
def isWS (c : Char) : Bool :=
  c = ' ' || c = '\t' || c = '\n' || c = '\r' || c = Char.ofNat 11 || c = Char.ofNat 12

/-- Fuelled worker for `subXS`.  Each recursive call strictly shortens
the list, so fuel equal to the initial length never runs out; the fuel
only serves to make the recursion structural (and hence kernel
reducible). -/
def subXSF : Nat → List Char → List Char
  | 0, l => l
  | _ + 1, [] => []
  | fuel + 1, c :: rest =>
    if c = 'x' then
      'x' :: subXSF fuel (rest.dropWhile isWS)
    else if isWS c then
      match rest.dropWhile isWS with
      | 'x' :: r => 'x' :: subXSF fuel (r.dropWhile isWS)
      | _ => c :: subXSF fuel rest
    else
      c :: subXSF fuel rest

/-- `re.sub(r"\s*x\s*", "x", s)` on a character list: every maximal run
of whitespace adjacent to a literal lowercase `x` is deleted together
with the `x`'s trailing whitespace, leftmost-first.  This is the
`.str.replace("\s*x\s*", "x", regex=True)` step of the source's
unit-type normalization. -/
def subXS (l : List Char) : List Char := subXSF l.length l

/-- Python `str.strip()`: drop leading and trailing whitespace. -/
def stripWS (l : List Char) : List Char :=
  ((l.dropWhile isWS).reverse.dropWhile isWS).reverse

/-- The tenant-side unit-type normalization (line 85 of the source):
`.str.replace("\s*x\s*", "x", regex=True).str.strip().str.lower()`,
in that order — the `x`-tightening regex runs BEFORE lowercasing. -/
def normKey (s : String) : String :=
  String.mk ((stripWS (subXS s.data)).map Char.toLower)

/-- The competitor-side unit-type normalization (line 96 of the source):
the same chain
`.str.replace("\s*x\s*", "x", regex=True).str.strip().str.lower()`. -/
def normKeyComp (s : String) : String :=
  String.mk ((stripWS (subXS s.data)).map Char.toLower)

/-- The mean of a list of rationals, `sum / len` (pandas / numpy mean of
a non-empty collection). -/
def mean (xs : List ℚ) : ℚ := xs.sum / (xs.length : ℚ)

/-- The manual competitor rates recorded for a (normalized) unit-type
key `u`: the `comp_rate` column of the manual CSV rows whose normalized
`unit_type` equals `u` (the source normalizes the column, then groups by
it). -/
def manualRates (manual : List (String × ℚ)) (u : String) : List ℚ :=
  ((manual.map (fun x => (normKeyComp x.1, x.2))).filter (fun x => x.1 = u)).map
    (fun x => x.2)

/-- The `comp_by_unit` lookup table of the source (lines 88–116), as a
function from a normalized unit-type key to a Python float:
* keys with at least one manual observation map to the group mean of
  their manual `comp_rate`s (line 97),
* every tenant-feed key not covered by a manual group is filled with the
  global scraped average (lines 114–116), which is `NaN` (`none`) when no
  price token was scraped (line 103),
* any other key falls to the `dict.get` default `np.nan` (line 136).
`tenantUnits` is `df["unit_type"].unique()`, already normalized;
`scraped` is the pooled list of all scraped price tokens. -/
def comp_by_unit (manual : List (String × ℚ)) (scraped : List ℚ)
    (tenantUnits : List String) (u : String) : PF :=
  if manualRates manual u ≠ [] then some (mean (manualRates manual u))
  else if tenantUnits.contains u then
    (if scraped = [] then none else some (mean scraped))
  else none

/-- The policy configuration from the sidebar (lines 15–22): percentage
fields are already divided by 100, `round_step` is the dollar rounding
step (1 or 5). -/
structure Policy where
  default_increase_pct : ℚ
  cadence_months : ℚ
  min_inc : ℚ
  max_inc : ℚ
  band_vs_comp : ℚ
  band_vs_standard : ℚ
  round_step : ℤ
deriving DecidableEq

/-- One tenant record after column mapping and numeric coercion
(lines 78–85): every numeric field is a Python float that is `NaN`
(`none`) when the cell was absent or non-numeric
(`pd.to_numeric(..., errors="coerce")`). -/
structure Row where
  unit_type : String
  current_standard_rate : PF
  current_tenant_rate : PF
  pending_tenant_rate : PF
  months_since_last_increase : PF
deriving DecidableEq

/-- One clause of the rationale trace built by `suggest`.  Each
constructor stands for one of the f-strings appended to `rationale` in
the source, carrying the numeric payloads that the f-string interpolates. -/
inductive Clause where
  | compAvg (unit : String) (avg : ℚ)
  | aboveCeiling (compMax : ℚ)
  | belowFloor (compMin : ℚ)
  | noCompData
  | overStdCap (cap : ℚ)
  | pendingCompare (pending : ℚ) (suggested : ℤ) (action : String)
  | noPendingSet (suggested : ℤ)
deriving DecidableEq

/-- Is this clause one of the two mutually exclusive opening clauses
(competitor average present / absent)? -/
def isCompClause : Clause → Bool
  | Clause.compAvg _ _ => true
  | Clause.noCompData => true
  | _ => false

/-- The output of `suggest` for one record (line 170). -/
structure Suggestion where
  suggested_rate : ℤ
  action : String
  rationale : List Clause
deriving DecidableEq

/-- Action labels returned by `suggest`. -/
def actIncrease : String := "increase"

/-- Action label `decrease`. -/
def actDecrease : String := "decrease"

/-- Action label `keep`. -/
def actKeep : String := "keep"

/-- Action label `set`. -/
def actSet : String := "set"

/-- Base increase selection (lines 127–130): start from
`default_increase_pct`; if `months_since_last_increase` is a number and
strictly below `cadence_months`, use `max(min_inc, default/2)` instead. -/
def base_inc (p : Policy) (months : PF) : ℚ :=
  match months with
  | some m =>
    if m < p.cadence_months then max p.min_inc (p.default_increase_pct / 2)
    else p.default_increase_pct
  | none => p.default_increase_pct

/-- Policy envelope step (lines 132–133):
`target = cur * (1 + base_inc)` followed by
`target = max(cur * (1 + min_inc), min(cur * (1 + max_inc), target))`,
on Python floats. -/
def envelopeTarget (p : Policy) (cur months : PF) : PF :=
  let target := pfMul cur (some (1 + base_inc p months))
  pfMax (pfMul cur (some (1 + p.min_inc)))
    (pfMin (pfMul cur (some (1 + p.max_inc))) target)

/-- Competitor banding step (lines 135–148): when the competitor average
is a number, cap the target at `comp_avg * (1 + band)` and then raise it
to `comp_avg * (1 - band)` when still below, recording a clause for the
average and for each bound that fires; when the average is `NaN`, record
only the no-competitor-data clause and leave the target alone. -/
def compBand (p : Policy) (unit : String) (comp_avg target : PF) :
    List Clause × PF :=
  match comp_avg with
  | none => ([Clause.noCompData], target)
  | some ca =>
    let comp_max := ca * (1 + p.band_vs_comp)
    let comp_min := ca * (1 - p.band_vs_comp)
    let r0 := [Clause.compAvg unit ca]
    let s1 : List Clause × PF :=
      if pfGt target (some comp_max) then
        (r0 ++ [Clause.aboveCeiling comp_max], some comp_max)
      else (r0, target)
    if pfLt s1.2 (some comp_min) then
      (s1.1 ++ [Clause.belowFloor comp_min], pfMax s1.2 (some comp_min))
    else s1

/-- Standard-rate ceiling step (lines 150–154): when the standard rate is
a number and the target exceeds `std * (1 + band_vs_standard)`, cap it
and record a clause. -/
def stdCap (p : Policy) (std : PF) (rt : List Clause × PF) :
    List Clause × PF :=
  match std with
  | none => rt
  | some s =>
    let cap := s * (1 + p.band_vs_standard)
    if pfGt rt.2 (some cap) then (rt.1 ++ [Clause.overStdCap cap], some cap)
    else rt

/-- The rationale and the pre-rounding target of one record: steps 1–4 of
`suggest` (lines 127–154), before `round_to_step` is applied. -/
def preRound (p : Policy) (comp : String → PF) (row : Row) :
    List Clause × PF :=
  stdCap p row.current_standard_rate
    (compBand p row.unit_type (comp row.unit_type)
      (envelopeTarget p row.current_tenant_rate row.months_since_last_increase))

/-- Action classification against the pending rate (lines 158–164):
`increase` above `pending * 1.01`, `decrease` below `pending * 0.99`,
else `keep`. -/
def classify (rounded : ℤ) (pend : ℚ) : String :=
  if pend * (101/100) < (rounded : ℚ) then actIncrease
  else if (rounded : ℚ) < pend * (99/100) then actDecrease
  else actKeep

/-- The `suggest(row)` function of the source (lines 120–170).  Returns
`none` when the evaluation raises: `round(NaN)` at line 156 raises
`ValueError` whenever the pre-rounding target is `NaN`, which happens
exactly when `current_tenant_rate` is `NaN` (absent or non-numeric). -/
def suggest (p : Policy) (comp : String → PF) (row : Row) :
    Option Suggestion :=
  match (preRound p comp row).2 with
  | none => none
  | some t =>
    match row.pending_tenant_rate with
    | some pend =>
      some ⟨round_to_step t p.round_step,
        classify (round_to_step t p.round_step) pend,
        (preRound p comp row).1 ++
          [Clause.pendingCompare pend (round_to_step t p.round_step)
            (classify (round_to_step t p.round_step) pend)]⟩
    | none =>
      some ⟨round_to_step t p.round_step, actSet,
        (preRound p comp row).1 ++
          [Clause.noPendingSet (round_to_step t p.round_step)]⟩

/-- The batch run `df.apply(suggest, axis=1)` (line 172): an uncaught
exception from any single record propagates out of `apply` and aborts the
whole batch, producing no output table at all — modelled by the `Option`
monad's `mapM`. -/
def suggest_all (p : Policy) (comp : String → PF) (rows : List Row) :
    Option (List Suggestion) :=
  rows.mapM (suggest p comp)

/-- A sample normalized unit-type key. -/
def uA : String := "unit-a"

/-- A unit-type key with an uppercase `X` in its dimension pattern. -/
def sUpperX : String := "10 X 20"

/-- The same key with a lowercase `x`. -/
def sLowerX : String := "10 x 20"

/-- The fully tightened form of the dimension key. -/
def sTight : String := "10x20"

/-- The dimension key padded with leading and trailing whitespace. -/
def sPad : String := "  10 x 20  "

/-- The dimension key with extra whitespace around the `x`. -/
def sSpread : String := "10   x  20"

/-- The sidebar's default policy: 17% default increase, 10-month cadence,
8% minimum, 18% maximum, ±3% competitor band, ±5% standard band,
$5 rounding. -/
def polD : Policy := ⟨17/100, 10, 8/100, 18/100, 3/100, 5/100, 5⟩

/-- An inconsistent policy with `min_inc > max_inc` (min 20%, max 10%),
reachable from the sidebar ranges. -/
def polMinTop : Policy := ⟨17/100, 10, 2/10, 1/10, 3/100, 5/100, 5⟩

/-- A policy whose minimum increase (20%) exceeds its default increase
(10%), reachable from the sidebar ranges. -/
def polMinHigh : Policy := ⟨1/10, 10, 2/10, 3/10, 3/100, 5/100, 5⟩

/-- A record with a valid current tenant rate of $1000 and nothing else. -/
def rowGood : Row := ⟨uA, none, some 1000, none, none⟩

/-- A record whose `current_tenant_rate` cell was absent or non-numeric,
so `pd.to_numeric(..., errors="coerce")` produced `NaN`. -/
def rowBad : Row := ⟨uA, none, none, none, none⟩

/-- A competitor index with no data for any unit type. -/
def compNone : String → PF := fun _ => none

/-- A competitor index reporting a low average of $500 for every unit. -/
def compLow : String → PF := fun _ => some 500

/-- An all-caps unit-type key. -/
def sCaps : String := "BIG UNIT"

/-- Its lowercased form. -/
def sCapsLower : String := "big unit"

/-- A manual competitor table with two rows for the `10 x 20` unit. -/
def manualEx : List (String × ℚ) := [(sLowerX, 100), (sLowerX, 200)]

/-- A pooled scraped price list with one token. -/
def scrapedEx : List ℚ := [50]

/-- A tenant feed containing a single normalized unit key. -/
def tenantsEx : List String := [uA]

/-- `pfMax` on two numbers agrees with the order-theoretic `max`. -/
theorem pfMax_some (a b : ℚ) : pfMax (some a) (some b) = some (max a b) := by
  simp only [pfMax, pfLt]
  rcases lt_trichotomy a b with h | h | h
  · simp [h, max_eq_right h.le]
  · simp [h, le_refl]
  · simp [not_lt.mpr h.le, max_eq_left h.le]

/-- `pfMin` on two numbers agrees with the order-theoretic `min`. -/
theorem pfMin_some (a b : ℚ) : pfMin (some a) (some b) = some (min a b) := by
  simp only [pfMin, pfLt]
  rcases lt_trichotomy a b with h | h | h
  · simp [not_lt.mpr h.le, min_eq_left h.le]
  · simp [h, le_refl]
  · simp [h, min_eq_right h.le]

/-- On a numeric current rate, the envelope step computes the clamp
`max (cur·(1+min)) (min (cur·(1+max)) (cur·(1+base)))`. -/
theorem envelopeTarget_some (p : Policy) (c : ℚ) (months : PF) :
    envelopeTarget p (some c) months =
      some (max (c * (1 + p.min_inc))
        (min (c * (1 + p.max_inc)) (c * (1 + base_inc p months)))) := by
  simp only [envelopeTarget, pfMul, pfMin_some, pfMax_some]

/-- For a positive numeric current rate and a consistent policy, the
envelope step produces a value inside the policy envelope. -/
theorem envelope_bounds (p : Policy) (c : ℚ) (months : PF)
    (hpos : 0 < c) (hmm : p.min_inc ≤ p.max_inc) :
    ∃ t : ℚ, envelopeTarget p (some c) months = some t ∧
      c * (1 + p.min_inc) ≤ t ∧ t ≤ c * (1 + p.max_inc) := by
  rw [envelopeTarget_some]
  exact ⟨_, rfl, le_max_left _ _, max_le (by nlinarith) (min_le_left _ _)⟩

/-- Python's `round` lands within half a unit of its argument. -/
theorem pyRound_close (q : ℚ) : |((pyRound q : ℤ) : ℚ) - q| ≤ 1/2 := by
  have h1 : ((Int.floor q : ℤ) : ℚ) ≤ q := Int.floor_le q
  have h2 : q < ((Int.floor q : ℤ) : ℚ) + 1 := Int.lt_floor_add_one q
  simp only [pyRound]
  split_ifs with ha hb hc
  · rw [abs_le]; constructor <;> push_cast <;> linarith
  · rw [abs_le]; constructor <;> push_cast <;> linarith
  · rw [abs_le]; constructor <;> push_cast <;> linarith
  · rw [abs_le]; constructor <;> push_cast <;> linarith

/-- Python's `round` is a nearest integer: no other integer is closer. -/
theorem pyRound_nearest (q : ℚ) (k : ℤ) :
    |((pyRound q : ℤ) : ℚ) - q| ≤ |((k : ℤ) : ℚ) - q| := by
  by_cases hk : k = pyRound q
  · rw [hk]
  · have h1 : (1 : ℤ) ≤ |k - pyRound q| := Int.one_le_abs (sub_ne_zero.mpr hk)
    have h1' : (1 : ℚ) ≤ |((k : ℚ)) - ((pyRound q : ℤ) : ℚ)| := by
      calc (1 : ℚ) = ((1 : ℤ) : ℚ) := by norm_num
      _ ≤ ((|k - pyRound q| : ℤ) : ℚ) := by exact_mod_cast h1
      _ = |((k : ℚ)) - ((pyRound q : ℤ) : ℚ)| := by push_cast; ring_nf
    have h2 : |((k : ℚ)) - ((pyRound q : ℤ) : ℚ)| ≤
        |((k : ℚ)) - q| + |q - ((pyRound q : ℤ) : ℚ)| := abs_sub_le _ _ _
    have h3 : |q - ((pyRound q : ℤ) : ℚ)| = |((pyRound q : ℤ) : ℚ) - q| := abs_sub_comm _ _
    have h4 := pyRound_close q
    linarith

/-- Scaling: the signed rounding error of `round_to_step` is `step` times
the error of `pyRound` on the quotient. -/
theorem round_to_step_sub (v : ℚ) (s : ℤ) (hs : s ≠ 0) (m : ℤ) :
    ((m * s : ℤ) : ℚ) - v = ((m : ℚ) - v / (s : ℚ)) * (s : ℚ) := by
  have hs' : ((s : ℤ) : ℚ) ≠ 0 := Int.cast_ne_zero.mpr hs
  field_simp

/-- `round_to_step` lands within `step/2` of its argument. -/
theorem round_to_step_close (v : ℚ) (s : ℤ) (hs : 0 < s) :
    |((round_to_step v s : ℤ) : ℚ) - v| ≤ (s : ℚ) / 2 := by
  have hs' : (0 : ℚ) < (s : ℚ) := by exact_mod_cast hs
  have key := round_to_step_sub v s hs.ne' (pyRound (v / (s : ℚ)))
  have : ((round_to_step v s : ℤ) : ℚ) - v =
      (((pyRound (v / (s : ℚ)) : ℤ) : ℚ) - v / (s : ℚ)) * (s : ℚ) := by
    simp only [round_to_step]; exact key
  rw [this, abs_mul, abs_of_pos hs']
  have := pyRound_close (v / (s : ℚ))
  calc |((pyRound (v / (s : ℚ)) : ℤ) : ℚ) - v / (s : ℚ)| * (s : ℚ)
      ≤ (1/2) * (s : ℚ) := by
        exact mul_le_mul_of_nonneg_right this hs'.le
  _ = (s : ℚ) / 2 := by ring

/-- With no competitor average, the banding step only records the
no-competitor-data clause and leaves the target untouched. -/
theorem compBand_none (p : Policy) (u : String) (t : PF) :
    compBand p u none t = ([Clause.noCompData], t) := rfl

/-- On a numeric average and target, the banding step computes: cap at
the ceiling, and from the capped value raise to the floor when below. -/
theorem compBand_some_snd (p : Policy) (u : String) (ca t : ℚ) :
    (compBand p u (some ca) (some t)).2 =
      some (if ca * (1 + p.band_vs_comp) < t then
              (if ca * (1 + p.band_vs_comp) < ca * (1 - p.band_vs_comp) then
                ca * (1 - p.band_vs_comp)
              else ca * (1 + p.band_vs_comp))
            else if t < ca * (1 - p.band_vs_comp) then ca * (1 - p.band_vs_comp)
            else t) := by
  simp only [compBand, pfGt, pfLt, pfMax]
  split_ifs with h1 h2 h3 h4 h5 h6 h7 <;> simp_all

/-- The rationale list produced by the banding step on a known average
starts with the competitor-average clause, and nothing after it is an
opening clause. -/
theorem compBand_fst_some (p : Policy) (u : String) (ca : ℚ) (t : PF) :
    ∃ tail, (compBand p u (some ca) t).1 = Clause.compAvg u ca :: tail ∧
      tail.countP isCompClause = 0 := by
  simp only [compBand]
  split_ifs with h1 h2 h3
  · refine ⟨[Clause.aboveCeiling (ca * (1 + p.band_vs_comp)),
        Clause.belowFloor (ca * (1 - p.band_vs_comp))], by simp, ?_⟩
    simp [List.countP_cons, isCompClause]
  · exact ⟨[Clause.aboveCeiling (ca * (1 + p.band_vs_comp))], by simp,
      by simp [List.countP_cons, isCompClause]⟩
  · exact ⟨[Clause.belowFloor (ca * (1 - p.band_vs_comp))], by simp,
      by simp [List.countP_cons, isCompClause]⟩
  · exact ⟨[], by simp, by simp⟩

/-- The standard-cap step appends at most one clause, which is not an
opening clause. -/
theorem stdCap_fst (p : Policy) (std : PF) (rt : List Clause × PF) :
    ∃ extra, (stdCap p std rt).1 = rt.1 ++ extra ∧
      extra.countP isCompClause = 0 := by
  match std with
  | none => exact ⟨[], by simp [stdCap]⟩
  | some s =>
    simp only [stdCap]
    split_ifs
    · exact ⟨[Clause.overStdCap (s * (1 + p.band_vs_standard))], by
        simp [List.countP, List.countP.go, isCompClause]⟩
    · exact ⟨[], by simp⟩

/-- With no standard rate the cap step is the identity. -/
theorem stdCap_none (p : Policy) (rt : List Clause × PF) :
    stdCap p none rt = rt := rfl

/-- C1: the claim is right and the code is wrong.  A record whose
`current_tenant_rate` is absent/non-numeric carries `NaN` through the
whole pipeline into `round_to_step`, where Python's `round(NaN)` raises
`ValueError`; the exception propagates out of `df.apply` and aborts the
entire batch, producing no output rows at all — not a flagged/skipped
row, and no suggestions for the other records.  This theorem evaluates
the embedded code at the failing input: the two-record batch yields
nothing, although the healthy record alone evaluates to a suggestion. -/
theorem C1_code_eval :
    suggest_all polD compNone [rowBad, rowGood] = none ∧
    suggest polD compNone rowBad = none ∧
    suggest polD compNone rowGood =
      some ⟨1170, actSet, [Clause.noCompData, Clause.noPendingSet 1170]⟩ := by
  have hf : Int.floor ((1170:ℚ)/5) = 234 := by norm_num [Int.floor_eq_iff]
  refine ⟨?_, ?_, ?_⟩
  · norm_num [suggest_all, List.mapM, List.mapM.loop, suggest, preRound, stdCap,
      compBand, envelopeTarget, base_inc, pfMul, pfMax, pfMin, pfLt, pfGt,
      rowBad, polD, compNone]
  · norm_num [suggest, preRound, stdCap, compBand, envelopeTarget, base_inc,
      pfMul, pfMax, pfMin, pfLt, pfGt, rowBad, polD, compNone]
  · norm_num [suggest, preRound, stdCap, compBand, envelopeTarget, base_inc,
      pfMul, pfMax, pfMin, pfLt, pfGt, round_to_step, pyRound, classify,
      rowGood, polD, compNone, hf]

/-- C2 counterexample: with the sidebar's default policy and a $500
competitor average, the final pre-rounding target of a $1000 tenant is
$515 — far below the claimed lower envelope bound
`current_tenant_rate * (1 + min_increase_pct) = 1080`; the competitor
ceiling applied after the envelope clamp does push the suggestion
outside the policy envelope. -/
theorem C2_cex :
    (preRound polD compLow rowGood).2 = some 515 ∧
    ¬ 1000 * (1 + polD.min_inc) ≤ (515 : ℚ) := by
  constructor
  · norm_num [preRound, stdCap, compBand, envelopeTarget, base_inc, pfMul,
      pfMax, pfMin, pfLt, pfGt, rowGood, polD, compLow]
  · norm_num [polD]

/-- C2 (amended): the envelope guarantee holds at the point where the
policy clamp is applied, not at the end of the pipeline: for every record
with a numeric positive current rate and a consistent policy
(`min_inc ≤ max_inc`), the target immediately after the policy-envelope
step lies within
`[current_tenant_rate*(1+min_inc), current_tenant_rate*(1+max_inc)]`;
the competitor and standard-rate bounds applied afterwards may push the
final pre-rounding target outside this envelope. -/
theorem C2_amended (p : Policy) (row : Row) (c : ℚ)
    (hc : row.current_tenant_rate = some c) (hpos : 0 < c)
    (hmm : p.min_inc ≤ p.max_inc) :
    ∃ t : ℚ,
      envelopeTarget p row.current_tenant_rate row.months_since_last_increase =
        some t ∧
      c * (1 + p.min_inc) ≤ t ∧ t ≤ c * (1 + p.max_inc) := by
  rw [hc, envelopeTarget_some]
  refine ⟨_, rfl, le_max_left _ _, ?_⟩
  have hlh : c * (1 + p.min_inc) ≤ c * (1 + p.max_inc) := by nlinarith
  exact max_le hlh (min_le_left _ _)

/-- Witness for the amended C2 at the default policy and a $1000 record. -/
theorem C2_amended_witness :
    ∃ t : ℚ,
      envelopeTarget polD rowGood.current_tenant_rate
        rowGood.months_since_last_increase = some t ∧
      1000 * (1 + polD.min_inc) ≤ t ∧ t ≤ 1000 * (1 + polD.max_inc) :=
  C2_amended polD rowGood 1000 rfl (by norm_num) (by norm_num [polD])

/-- C3 counterexample: with `min_inc = 20% > max_inc = 10%` and a $100
record, the envelope clamp produces $120 = `cur * (1 + min_inc)`, not the
claimed max-bound value `cur * (1 + max_inc) = 110`. -/
theorem C3_cex :
    envelopeTarget polMinTop (some 100) none = some 120 ∧
    (120 : ℚ) ≠ 100 * (1 + polMinTop.max_inc) := by
  constructor
  · norm_num [envelopeTarget, base_inc, polMinTop, pfMul, pfMax, pfMin, pfLt]
  · norm_num [polMinTop]

/-- C3 (amended): for an inconsistent policy with
`min_increase_pct > max_increase_pct` and a positive current rate, the
clamp `max(cur*(1+min), min(cur*(1+max), target))` produces the
MIN-bound value `cur * (1 + min_increase_pct)` — the lower clamp
dominates, because the outer `max` is applied second. -/
theorem C3_amended (p : Policy) (c : ℚ) (months : PF)
    (hpos : 0 < c) (hinc : p.max_inc < p.min_inc) :
    envelopeTarget p (some c) months = some (c * (1 + p.min_inc)) := by
  rw [envelopeTarget_some]
  have hlt : c * (1 + p.max_inc) < c * (1 + p.min_inc) := by nlinarith
  have h1 : min (c * (1 + p.max_inc)) (c * (1 + base_inc p months)) ≤
      c * (1 + p.min_inc) := le_trans (min_le_left _ _) hlt.le
  rw [max_eq_left h1]

/-- Witness for the amended C3 at the inconsistent sample policy. -/
theorem C3_amended_witness :
    envelopeTarget polMinTop (some 100) none =
      some (100 * (1 + polMinTop.min_inc)) :=
  C3_amended polMinTop 100 none (by norm_num) (by norm_num [polMinTop])

/-- C4 counterexample: at the claimed tie example (step 5, value 152.5)
the code returns 150, not the claimed 155 — Python's `round` rounds
halves to the even quotient, not away from zero. -/
theorem C4_cex : round_to_step (305/2) 5 = 150 ∧ (150 : ℤ) ≠ 155 := by
  have hq : (305 : ℚ)/2 / ((5 : ℤ) : ℚ) = 61/2 := by norm_num
  have hf : Int.floor ((61 : ℚ)/2) = 30 := by norm_num [Int.floor_eq_iff]
  constructor
  · rw [round_to_step, hq]
    norm_num [pyRound, hf]
  · norm_num

/-- C4 (amended): for every positive step, `round_to_step(v, s)` is an
integer multiple of `s` at least as close to `v` as ANY multiple of `s`;
but at an exact halfway point the quotient rounds half to even
(banker's rounding) — step 5, value 152.5 gives 150 — instead of the
claimed away-from-zero direction. -/
theorem C4_amended (v : ℚ) (s : ℤ) (hs : 0 < s) :
    (∀ k : ℤ, |((round_to_step v s : ℤ) : ℚ) - v| ≤ |((k * s : ℤ) : ℚ) - v|) ∧
    (∀ n : ℤ, v = ((n : ℚ) + 1/2) * (s : ℚ) →
      round_to_step v s = (if n % 2 = 0 then n else n + 1) * s) := by
  have hs' : (0 : ℚ) < (s : ℚ) := by exact_mod_cast hs
  constructor
  · intro k
    have e1 := round_to_step_sub v s hs.ne' (pyRound (v / (s : ℚ)))
    have e2 := round_to_step_sub v s hs.ne' k
    rw [show ((round_to_step v s : ℤ) : ℚ) =
        ((pyRound (v / (s : ℚ)) * s : ℤ) : ℚ) from rfl, e1, e2,
      abs_mul, abs_mul, abs_of_pos hs']
    exact mul_le_mul_of_nonneg_right (pyRound_nearest (v / (s : ℚ)) k) hs'.le
  · intro n hv
    have hq : v / (s : ℚ) = (n : ℚ) + 1/2 := by
      rw [hv]; field_simp; ring
    have hfl : Int.floor ((n : ℚ) + 1/2) = n := by
      rw [Int.floor_eq_iff]
      constructor
      · linarith
      · push_cast; linarith
    rw [round_to_step, hq]
    simp only [pyRound, hfl]
    norm_num

/-- Witness for the amended C4: at value 152.5 and step 5 the result is
at least as close to 152.5 as the multiple 31·5 = 155 is. -/
theorem C4_amended_witness :
    |((round_to_step (305/2) 5 : ℤ) : ℚ) - 305/2| ≤
      |((31 * 5 : ℤ) : ℚ) - 305/2| :=
  (C4_amended (305/2) 5 (by norm_num)).1 31

/-- C6 counterexample: a sidebar-reachable policy with
`min_increase_pct = 20% > default_increase_pct = 10%` makes the
cadence-throttled base `max(0.2, 0.05) = 0.2` STRICTLY GREATER than the
untouched default 0.1, falsifying the claimed `≤` comparison. -/
theorem C6_cex :
    base_inc polMinHigh (some 3) = 2/10 ∧
    base_inc polMinHigh none = 1/10 ∧
    ¬ base_inc polMinHigh (some 3) ≤ base_inc polMinHigh none := by
  norm_num [base_inc, polMinHigh, max_def]

/-- C6 (amended): when `months_since_last_increase` is known and strictly
below the cadence, the engine's base increase equals
`max(min_increase_pct, default_increase_pct / 2)`; the non-throttled base
is `default_increase_pct`; and the throttled base is ≤ the non-throttled
one provided the policy is consistent
(`0 ≤ default_increase_pct` and `min_increase_pct ≤ default_increase_pct`). -/
theorem C6_amended (p : Policy) (m : ℚ) (hm : m < p.cadence_months) :
    base_inc p (some m) = max p.min_inc (p.default_increase_pct / 2) ∧
    base_inc p none = p.default_increase_pct ∧
    (0 ≤ p.default_increase_pct → p.min_inc ≤ p.default_increase_pct →
      base_inc p (some m) ≤ p.default_increase_pct) := by
  refine ⟨by simp [base_inc, hm], rfl, ?_⟩
  intro h0 hmin
  simp only [base_inc, if_pos hm]
  exact max_le hmin (by linarith)

/-- Witness for the amended C6 at the default policy, 3 months since the
last increase. -/
theorem C6_amended_witness :
    base_inc polD (some 3) = max polD.min_inc (polD.default_increase_pct / 2) ∧
    base_inc polD none = polD.default_increase_pct ∧
    (0 ≤ polD.default_increase_pct → polD.min_inc ≤ polD.default_increase_pct →
      base_inc polD (some 3) ≤ polD.default_increase_pct) :=
  C6_amended polD 3 (by norm_num [polD])

/-- C9 counterexample: two keys differing only in the letter case of the
`x` inside a dimension pattern do NOT normalize to the same key — the
tightening regex is case-sensitive and runs before lowercasing, so
`10 X 20` normalizes to `10 x 20` while `10 x 20` normalizes to `10x20`;
the claimed case-insensitive exact-match join fails. -/
theorem C9_cex :
    normKey sUpperX = sLowerX ∧ normKey sLowerX = sTight ∧
    normKey sUpperX ≠ normKey sLowerX := by
  refine ⟨by decide, by decide, by decide⟩

/-- C9 (amended): the tenant-side and competitor-side normalizations are
the identical function, so equal raw keys always join; the function
lowercases, strips leading/trailing whitespace and tightens whitespace
around a LOWERCASE `x` (demonstrated on sample keys), so keys differing
only in that way join; but case differences affecting the `x` of a
dimension pattern, or interior whitespace not adjacent to a lowercase
`x`, can still produce distinct keys. -/
theorem C9_amended :
    (∀ s : String, normKey s = normKeyComp s) ∧
    normKey sPad = normKey sLowerX ∧
    normKey sSpread = normKey sLowerX ∧
    normKey sLowerX = sTight ∧
    normKey sCaps = sCapsLower := by
  refine ⟨fun s => rfl, by decide, by decide, by decide, by decide⟩

/-- C5: the competitor index maps a key with manual observations to the
arithmetic mean of its manual rates, independently of whatever was
scraped; a tenant-feed key with no manual observations maps to the mean
of the pooled scraped tokens (when any exist); with no manual rows and no
scraped numbers every key maps to `NaN` (absent); and the engine treats
an absent average as "no competitor signal": it records the
no-competitor-data clause and leaves the target unchanged. -/
theorem C5_thm (manual : List (String × ℚ)) (scraped : List ℚ)
    (tenants : List String) (u : String) :
    (manualRates manual u ≠ [] →
      comp_by_unit manual scraped tenants u =
          some (mean (manualRates manual u)) ∧
        ∀ scraped2 : List ℚ, comp_by_unit manual scraped2 tenants u =
          comp_by_unit manual scraped tenants u) ∧
    (manualRates manual u = [] → tenants.contains u → scraped ≠ [] →
      comp_by_unit manual scraped tenants u = some (mean scraped)) ∧
    (manual = [] → scraped = [] →
      comp_by_unit manual scraped tenants u = none) ∧
    (∀ (p : Policy) (t : PF), compBand p u none t = ([Clause.noCompData], t)) := by
  refine ⟨?_, ?_, ?_, fun p t => rfl⟩
  · intro h
    constructor
    · simp [comp_by_unit, h]
    · intro s2
      simp [comp_by_unit, h]
  · intro h1 h2 h3
    simp [comp_by_unit, h1, h3]
    simpa using h2
  · intro h1 h2
    subst h1; subst h2
    simp [comp_by_unit, manualRates]

/-- Witness for C5: on the sample manual table the `10x20` key gets the
manual group mean, and on an empty world the engine records
no-competitor-data without touching the target. -/
theorem C5_witness :
    manualRates manualEx sTight ≠ [] ∧
    comp_by_unit manualEx scrapedEx tenantsEx sTight =
      some (mean (manualRates manualEx sTight)) :=
  ⟨by decide,
    ((C5_thm manualEx scrapedEx tenantsEx sTight).1 (by decide)).1⟩

/-- C7: for a record with a numeric positive current rate, no competitor
average and no standard rate, under a consistent policy
(`min_inc ≤ max_inc`, positive rounding step) the pre-rounding target
lies within the policy envelope
`[cur*(1+min_inc), cur*(1+max_inc)]` and the rounded `suggested_rate`
differs from that pre-rounding target by at most `round_step / 2`. -/
theorem C7_thm (p : Policy) (comp : String → PF) (row : Row) (c : ℚ)
    (hcur : row.current_tenant_rate = some c) (hpos : 0 < c)
    (hmm : p.min_inc ≤ p.max_inc) (hstep : 0 < p.round_step)
    (hcomp : comp row.unit_type = none)
    (hstd : row.current_standard_rate = none) :
    ∃ (t : ℚ) (s : Suggestion),
      (preRound p comp row).2 = some t ∧
      suggest p comp row = some s ∧
      c * (1 + p.min_inc) ≤ t ∧ t ≤ c * (1 + p.max_inc) ∧
      |((s.suggested_rate : ℤ) : ℚ) - t| ≤ ((p.round_step : ℤ) : ℚ) / 2 := by
  obtain ⟨t0, ht0, hlo, hhi⟩ :=
    envelope_bounds p c row.months_since_last_increase hpos hmm
  have hpre : preRound p comp row = ([Clause.noCompData], some t0) := by
    rw [preRound, hcomp, hstd, compBand_none, stdCap_none, hcur, ht0]
  have h2 : (preRound p comp row).2 = some t0 := by rw [hpre]
  have hclose := round_to_step_close t0 p.round_step hstep
  cases hp : row.pending_tenant_rate with
  | some pend =>
    refine ⟨t0, ⟨round_to_step t0 p.round_step,
      classify (round_to_step t0 p.round_step) pend,
      [Clause.noCompData] ++
        [Clause.pendingCompare pend (round_to_step t0 p.round_step)
          (classify (round_to_step t0 p.round_step) pend)]⟩,
      h2, ?_, hlo, hhi, ?_⟩
    · simp only [suggest, hpre, hp]
    · simpa using hclose
  | none =>
    refine ⟨t0, ⟨round_to_step t0 p.round_step, actSet,
      [Clause.noCompData] ++
        [Clause.noPendingSet (round_to_step t0 p.round_step)]⟩,
      h2, ?_, hlo, hhi, ?_⟩
    · simp only [suggest, hpre, hp]
    · simpa using hclose

/-- Witness for C7 at the default policy and the $1000 record with no
competitor data and no standard rate. -/
theorem C7_witness :
    ∃ (t : ℚ) (s : Suggestion),
      (preRound polD compNone rowGood).2 = some t ∧
      suggest polD compNone rowGood = some s ∧
      1000 * (1 + polD.min_inc) ≤ t ∧ t ≤ 1000 * (1 + polD.max_inc) ∧
      |((s.suggested_rate : ℤ) : ℚ) - t| ≤ ((polD.round_step : ℤ) : ℚ) / 2 :=
  C7_thm polD compNone rowGood 1000 rfl (by norm_num) (by norm_num [polD])
    (by decide) rfl rfl

/-- C8: for a known non-negative competitor average and band values
`0 ≤ b1 ≤ b2`, the post-banding target computed with the wider band `b2`
is at least as close to the unconstrained (pre-banding) target as the one
computed with `b1`: widening `band_vs_competitor_pct` never moves the
result further from the unconstrained target. -/
theorem C8_thm (p : Policy) (u : String) (ca t b1 b2 : ℚ)
    (hca : 0 ≤ ca) (hb1 : 0 ≤ b1) (hb12 : b1 ≤ b2) :
    ∀ t1 t2 : ℚ,
      (compBand { p with band_vs_comp := b1 } u (some ca) (some t)).2 =
        some t1 →
      (compBand { p with band_vs_comp := b2 } u (some ca) (some t)).2 =
        some t2 →
      |t2 - t| ≤ |t1 - t| := by
  intro t1 t2 h1 h2
  rw [compBand_some_snd] at h1 h2
  simp only [Option.some.injEq] at h1 h2
  have hb2 : 0 ≤ b2 := le_trans hb1 hb12
  have hc1 : ca * (1 - b1) ≤ ca * (1 + b1) := by nlinarith
  have hc2 : ca * (1 - b2) ≤ ca * (1 + b2) := by nlinarith
  have hmax12 : ca * (1 + b1) ≤ ca * (1 + b2) := by nlinarith
  have hmin21 : ca * (1 - b2) ≤ ca * (1 - b1) := by nlinarith
  subst h1; subst h2
  by_cases k1 : ca * (1 + b1) < t
  · rw [if_pos k1, if_neg (not_lt.mpr hc1)]
    by_cases k2 : ca * (1 + b2) < t
    · rw [if_pos k2, if_neg (not_lt.mpr hc2)]
      rw [abs_of_neg (by linarith), abs_of_neg (by linarith)]
      linarith
    · rw [if_neg k2, if_neg (not_lt.mpr (by linarith : ca * (1 - b2) ≤ t))]
      simp
  · rw [if_neg k1]
    by_cases k3 : t < ca * (1 - b1)
    · rw [if_pos k3,
        if_neg (not_lt.mpr (by linarith : t ≤ ca * (1 + b2)))]
      by_cases k4 : t < ca * (1 - b2)
      · rw [if_pos k4]
        rw [abs_of_pos (by linarith), abs_of_pos (by linarith)]
        linarith
      · rw [if_neg k4]
        simp
    · rw [if_neg k3,
        if_neg (not_lt.mpr (by linarith : t ≤ ca * (1 + b2))),
        if_neg (not_lt.mpr (by linarith : ca * (1 - b2) ≤ t))]

/-- Witness for C8 at the default policy: a $500 average with bands 3%
and 5% caps the $1170 target to $515 and $525 respectively, and the
wider band lands closer to the unconstrained target. -/
theorem C8_witness : |(525 : ℚ) - 1170| ≤ |(515 : ℚ) - 1170| :=
  C8_thm polD uA 500 1170 (3/100) (5/100) (by norm_num) (by norm_num)
    (by norm_num) 515 525
    (by norm_num [compBand, pfGt, pfLt, pfMax])
    (by norm_num [compBand, pfGt, pfLt, pfMax])

/-- The last element of a list with a single element appended. -/
theorem getLast_app_single {α : Type} (l : List α) (a : α) :
    (l ++ [a]).getLast? = some a := by
  rw [List.getLast?_append_cons]
  rfl

/-- The rationale accumulated before rounding opens with exactly one of
the two opening clauses — the competitor-average clause when an average
is known, the no-competitor-data clause when not — and no other opening
clause follows. -/
theorem preRound_fst_shape (p : Policy) (comp : String → PF) (row : Row) :
    (∃ ca tail, comp row.unit_type = some ca ∧
        (preRound p comp row).1 = Clause.compAvg row.unit_type ca :: tail ∧
        tail.countP isCompClause = 0) ∨
      (∃ tail, comp row.unit_type = none ∧
        (preRound p comp row).1 = Clause.noCompData :: tail ∧
        tail.countP isCompClause = 0) := by
  obtain ⟨extra, hex, hexc⟩ := stdCap_fst p row.current_standard_rate
    (compBand p row.unit_type (comp row.unit_type)
      (envelopeTarget p row.current_tenant_rate
        row.months_since_last_increase))
  cases hc : comp row.unit_type with
  | some ca =>
    obtain ⟨tail, htail, htailc⟩ := compBand_fst_some p row.unit_type ca
      (envelopeTarget p row.current_tenant_rate
        row.months_since_last_increase)
    left
    rw [hc] at hex
    refine ⟨ca, tail ++ extra, rfl, ?_, ?_⟩
    · have h1 : (preRound p comp row).1 =
          (compBand p row.unit_type (some ca)
            (envelopeTarget p row.current_tenant_rate
              row.months_since_last_increase)).1 ++ extra := by
        unfold preRound
        rw [hc]
        exact hex
      rw [h1, htail, List.cons_append]
    · rw [List.countP_append, htailc, hexc]
  | none =>
    right
    rw [hc] at hex
    refine ⟨extra, rfl, ?_, hexc⟩
    have h1 : (preRound p comp row).1 =
        (compBand p row.unit_type none
          (envelopeTarget p row.current_tenant_rate
            row.months_since_last_increase)).1 ++ extra := by
      unfold preRound
      rw [hc]
      exact hex
    rw [h1, compBand_none]
    simp

/-- C10: every suggestion the engine actually produces has a non-empty
rationale; its first clause is the competitor-average clause exactly when
an average is known and the no-competitor-data clause exactly when not
(and exactly one opening clause appears in the whole list); its last
clause is the pending-vs-suggested comparison when a pending rate is
known and the no-pending clause otherwise. -/
theorem C10_thm (p : Policy) (comp : String → PF) (row : Row)
    (s : Suggestion) (h : suggest p comp row = some s) :
    s.rationale ≠ [] ∧
    ((∃ ca, comp row.unit_type = some ca ∧
        s.rationale.head? = some (Clause.compAvg row.unit_type ca)) ∨
      (comp row.unit_type = none ∧
        s.rationale.head? = some Clause.noCompData)) ∧
    s.rationale.countP isCompClause = 1 ∧
    ((∃ pend, row.pending_tenant_rate = some pend ∧ ∃ a,
        s.rationale.getLast? =
          some (Clause.pendingCompare pend s.suggested_rate a)) ∨
      (row.pending_tenant_rate = none ∧
        s.rationale.getLast? =
          some (Clause.noPendingSet s.suggested_rate))) := by
  cases ht : (preRound p comp row).2 with
  | none =>
    rw [suggest, ht] at h
    simp at h
  | some t =>
    rw [suggest, ht] at h
    rcases preRound_fst_shape p comp row with
      ⟨ca, tail, hc, hfst, htc⟩ | ⟨tail, hc, hfst, htc⟩
    · cases hp : row.pending_tenant_rate with
      | some pend =>
        rw [hp, Option.some.injEq] at h
        subst h
        refine ⟨by simp [hfst], ?_, ?_, ?_⟩
        · exact Or.inl ⟨ca, hc, by rw [hfst]; simp⟩
        · rw [hfst]
          simp [List.countP_append, List.countP_cons, htc, isCompClause]
        · exact Or.inl ⟨pend, rfl,
            classify (round_to_step t p.round_step) pend,
            by dsimp only; rw [hfst, getLast_app_single]⟩
      | none =>
        rw [hp, Option.some.injEq] at h
        subst h
        refine ⟨by simp [hfst], ?_, ?_, ?_⟩
        · exact Or.inl ⟨ca, hc, by rw [hfst]; simp⟩
        · rw [hfst]
          simp [List.countP_append, List.countP_cons, htc, isCompClause]
        · exact Or.inr ⟨rfl,
            by dsimp only; rw [hfst, getLast_app_single]⟩
    · cases hp : row.pending_tenant_rate with
      | some pend =>
        rw [hp, Option.some.injEq] at h
        subst h
        refine ⟨by simp [hfst], ?_, ?_, ?_⟩
        · exact Or.inr ⟨hc, by rw [hfst]; simp⟩
        · rw [hfst]
          simp [List.countP_append, List.countP_cons, htc, isCompClause]
        · exact Or.inl ⟨pend, rfl,
            classify (round_to_step t p.round_step) pend,
            by dsimp only; rw [hfst, getLast_app_single]⟩
      | none =>
        rw [hp, Option.some.injEq] at h
        subst h
        refine ⟨by simp [hfst], ?_, ?_, ?_⟩
        · exact Or.inr ⟨hc, by rw [hfst]; simp⟩
        · rw [hfst]
          simp [List.countP_append, List.countP_cons, htc, isCompClause]
        · exact Or.inr ⟨rfl,
            by dsimp only; rw [hfst, getLast_app_single]⟩

/-- Witness for C10 at the default policy and the $1000 record with no
competitor data and no pending rate: the rationale is exactly
`[noCompData, noPendingSet 1170]`. -/
theorem C10_witness :
    (Suggestion.mk 1170 actSet
        [Clause.noCompData, Clause.noPendingSet 1170]).rationale ≠ [] ∧
    ((∃ ca, compNone rowGood.unit_type = some ca ∧
        (Suggestion.mk 1170 actSet
          [Clause.noCompData, Clause.noPendingSet 1170]).rationale.head? =
          some (Clause.compAvg rowGood.unit_type ca)) ∨
      (compNone rowGood.unit_type = none ∧
        (Suggestion.mk 1170 actSet
          [Clause.noCompData, Clause.noPendingSet 1170]).rationale.head? =
          some Clause.noCompData)) ∧
    (Suggestion.mk 1170 actSet
        [Clause.noCompData, Clause.noPendingSet 1170]).rationale.countP
      isCompClause = 1 ∧
    ((∃ pend, rowGood.pending_tenant_rate = some pend ∧ ∃ a,
        (Suggestion.mk 1170 actSet
          [Clause.noCompData, Clause.noPendingSet 1170]).rationale.getLast? =
          some (Clause.pendingCompare pend
            (Suggestion.mk 1170 actSet
              [Clause.noCompData, Clause.noPendingSet 1170]).suggested_rate
            a)) ∨
      (rowGood.pending_tenant_rate = none ∧
        (Suggestion.mk 1170 actSet
          [Clause.noCompData, Clause.noPendingSet 1170]).rationale.getLast? =
          some (Clause.noPendingSet
            (Suggestion.mk 1170 actSet
              [Clause.noCompData,
                Clause.noPendingSet 1170]).suggested_rate))) :=
  C10_thm polD compNone rowGood
    ⟨1170, actSet, [Clause.noCompData, Clause.noPendingSet 1170]⟩
    (by
      have hf : Int.floor ((1170 : ℚ)/5) = 234 := by
        norm_num [Int.floor_eq_iff]
      norm_num [suggest, preRound, stdCap, compBand, envelopeTarget,
        base_inc, pfMul, pfMax, pfMin, pfLt, pfGt, round_to_step, pyRound,
        rowGood, polD, compNone, hf])
